import Mathlib

/-!
Shallow embedding of `src/main.py` (Financial-Statement-Automation-Tool).

The program parses a CSV of financial line items (one row = name, current-year
value, last-year value), derives per-row difference and change ratio over exact
`decimal.Decimal` arithmetic, appends three derived ratio rows driven by the
`ADDITIONAL_ROWS` registry, and renders a CSV table plus a narrative report.

Modelling conventions:
* `Dec` models a Python `decimal.Decimal` value: a finite exact rational, a
  quiet NaN, or a signed infinity.  Finite arithmetic is modelled exactly over
  `ℚ`; the 28-significant-digit context rounding of the `decimal` module is not
  modelled (every claim compares results that are exactly representable), and
  the sign of a zero result is not tracked.
* Python exceptions are modelled with `Except Unit`: an `InvalidOperation`
  signalled by the default decimal context (e.g. `NaN >= 0`, `Inf - Inf`,
  division by zero), a `TypeError` (e.g. `None >= 0`, `Decimal / None`), and an
  `AttributeError` (`None.current_year`) all become `.error ()`, matching the
  program, which only ever catches exceptions with a bare `except Exception`.
* `Raw` models an arbitrary raw cell value through the lens of
  `safe_decimal`: `Raw.num d` is any value whose `str()` form parses as the
  decimal `d` (numeric strings, `"NaN"`, `"Infinity"`, `Decimal` objects);
  `Raw.bad` is any value whose `str()` form is not a valid decimal literal
  (empty string, words, `None`), for which `Decimal(str(value))` raises and
  `safe_decimal` returns `None`.
-/

instance {ε α : Type} [DecidableEq ε] [DecidableEq α] : DecidableEq (Except ε α) := fun a b =>
  match a, b with
  | .error x, .error y =>
    if h : x = y then isTrue (by rw [h]) else isFalse (by intro hh; injection hh; contradiction)
  | .error _, .ok _ => isFalse (by intro h; cases h)
  | .ok _, .error _ => isFalse (by intro h; cases h)
  | .ok x, .ok y =>
    if h : x = y then isTrue (by rw [h]) else isFalse (by intro hh; injection hh; contradiction)

/-- A Python `decimal.Decimal` value: finite (exact rational), quiet NaN, or a
signed infinity (`neg = true` means negative infinity). -/
inductive Dec where
  | fin (q : ℚ)
  | nan
  | inf (neg : Bool)
deriving DecidableEq

/-- Decimal subtraction `a - b`.  `Inf - Inf` of equal signs signals
`InvalidOperation` (raises under the default context); quiet NaN propagates. -/
def Dec.sub : Dec → Dec → Except Unit Dec
  | .nan, _ => .ok .nan
  | _, .nan => .ok .nan
  | .inf s, .inf t => if s = t then .error () else .ok (.inf s)
  | .inf s, .fin _ => .ok (.inf s)
  | .fin _, .inf t => .ok (.inf (!t))
  | .fin a, .fin b => .ok (.fin (a - b))

/-- Decimal addition `a + b`.  `Inf + (-Inf)` signals `InvalidOperation`. -/
def Dec.add : Dec → Dec → Except Unit Dec
  | .nan, _ => .ok .nan
  | _, .nan => .ok .nan
  | .inf s, .inf t => if s = t then .ok (.inf s) else .error ()
  | .inf s, .fin _ => .ok (.inf s)
  | .fin _, .inf t => .ok (.inf t)
  | .fin a, .fin b => .ok (.fin (a + b))

/-- Decimal multiplication `a * b`.  `0 * Inf` signals `InvalidOperation`. -/
def Dec.mul : Dec → Dec → Except Unit Dec
  | .nan, _ => .ok .nan
  | _, .nan => .ok .nan
  | .inf s, .inf t => .ok (.inf (s != t))
  | .inf s, .fin q => if q = 0 then .error () else .ok (.inf (xor s (decide (q < 0))))
  | .fin q, .inf t => if q = 0 then .error () else .ok (.inf (xor t (decide (q < 0))))
  | .fin a, .fin b => .ok (.fin (a * b))

/-- Decimal division `a / b`.  Division by a finite zero raises
(`DivisionByZero`, or `InvalidOperation` for `0 / 0`) and `Inf / Inf` signals
`InvalidOperation`; finite division is modelled exactly over `ℚ`. -/
def Dec.div : Dec → Dec → Except Unit Dec
  | .nan, _ => .ok .nan
  | _, .nan => .ok .nan
  | .inf _, .inf _ => .error ()
  | .inf s, .fin q => .ok (.inf (xor s (decide (q < 0))))
  | .fin _, .inf _ => .ok (.fin 0)
  | .fin a, .fin b => if b = 0 then .error () else .ok (.fin (a / b))

/-- The Python comparison `x != 0` on a Decimal.  Equality comparisons with a
quiet NaN do not signal: `Decimal("NaN") != 0` is `True`. -/
def Dec.neZero : Dec → Bool
  | .nan => true
  | .inf _ => true
  | .fin q => decide (q ≠ 0)

/-- The Python comparison `x >= 0` on a Decimal.  Ordering comparisons with a
NaN signal `InvalidOperation` and hence raise under the default context. -/
def Dec.geZero : Dec → Except Unit Bool
  | .nan => .error ()
  | .inf s => .ok (!s)
  | .fin q => .ok (decide (0 ≤ q))

/-- Python truthiness `bool(x)` of a Decimal: `False` exactly for zero
(NaN and infinities are truthy). -/
def Dec.truthy : Dec → Bool
  | .nan => true
  | .inf _ => true
  | .fin q => decide (q ≠ 0)

/-- A raw input cell, classified by the behaviour of `Decimal(str(value))`:
`num d` parses to the decimal `d`, `bad` fails to parse (raises
`InvalidOperation` or `TypeError`). -/
inductive Raw where
  | num (d : Dec)
  | bad
deriving DecidableEq

/-- `safe_decimal(value)` (main.py lines 62-66): `Decimal(str(value))`, with
`InvalidOperation`/`TypeError` converted to `None`. -/
def safe_decimal : Raw → Option Dec
  | .num d => some d
  | .bad => none

/-- The `Row` dataclass (main.py lines 69-90) after `__post_init__` ran:
`current_year`/`last_year` hold the parse results (`none` = Python `None`),
`difference` and `ratio` the derived fields. -/
structure Row where
  name : String
  current_year : Option Dec
  last_year : Option Dec
  difference : Option Dec
  ratio : Option Dec
deriving DecidableEq

/-- Construction of a `Row` including `__post_init__` (main.py lines 77-90).
There is no exception handler in `__post_init__`: any decimal fault raised by
`current - last`, `current * last >= 0`, or `difference / last` propagates out
of the constructor, which the `Except` result records.  The guard
`last_year != 0 and current_year * last_year >= 0` short-circuits, so the
multiplication and comparison are only evaluated when `last_year != 0`. -/
def Row.make (name : String) (currentRaw lastRaw : Raw) : Except Unit Row :=
  match safe_decimal currentRaw, safe_decimal lastRaw with
  | some c, some l =>
    match Dec.sub c l with
    | .error e => .error e
    | .ok diff =>
      if Dec.neZero l then
        match Dec.mul c l with
        | .error e => .error e
        | .ok p =>
          match Dec.geZero p with
          | .error e => .error e
          | .ok ge =>
            if ge then
              match Dec.div diff l with
              | .error e => .error e
              | .ok r => .ok ⟨name, some c, some l, some diff, some r⟩
            else .ok ⟨name, some c, some l, some diff, none⟩
      else .ok ⟨name, some c, some l, some diff, none⟩
  | c?, l? => .ok ⟨name, c?, l?, none, none⟩

/-- Parse results that are `None` or a finite decimal (no NaN, no infinity). -/
def isFinOrNone : Option Dec → Bool
  | none => true
  | some (.fin _) => true
  | some _ => false

/-- A ratio formula: the Python lambda stored in `ADDITIONAL_ROWS`, applied to
the list of (possibly `None`) period values of its source rows.  Applying a
lambda to a `None` argument (or evaluating `/` or `+` on one) raises
`TypeError`; decimal faults inside the body raise as well — all modelled by
`.error ()`. -/
abbrev Formula := List (Option Dec) → Except Unit Dec

/-- One entry of the registry: output row name, formula, source row names. -/
abbrev RegEntry := String × Formula × List String

/-- `lambda current_asset, current_liability: current_asset / current_liability`. -/
def currentRatioFormula : Formula
  | [some a, some b] => Dec.div a b
  | _ => .error ()

/-- `lambda ncib_debt, equity: ncib_debt / equity`. -/
def dteFormula : Formula
  | [some a, some b] => Dec.div a b
  | _ => .error ()

/-- `lambda ebit, interest_costs, principal: ebit / (interest_costs + principal)`. -/
def dscFormula : Formula
  | [some a, some b, some c] =>
    match Dec.add b c with
    | .error e => .error e
    | .ok s => Dec.div a s
  | _ => .error ()

/-- The `ADDITIONAL_ROWS` registry (main.py lines 35-52), in insertion order. -/
def ADDITIONAL_ROWS : List RegEntry :=
  [("Current Ratio", currentRatioFormula, ["current_asset", "current_liability"]),
   ("Debt to Equity Ratio", dteFormula, ["ncib_debt", "equity"]),
   ("Debt Service Coverage Ratio", dscFormula,
     ["ebit", "interest_costs", "debt_service_of_principal"])]

/-- `DEFAULT_COLUMN_ROW_INDEX` (main.py lines 16-32) seen through `dict.get`:
keys mapped to `None` in the Python dict (`current_ratio`, `dte_ratio`,
`dsc_ratio`) and absent keys both yield `None` from `get`, so both are
modelled as `none` here. -/
def DEFAULT_COLUMN_ROW_INDEX : String → Option Nat := fun s =>
  if s = "current_asset" then some 7
  else if s = "current_liability" then some 10
  else if s = "ncib_debt" then some 9
  else if s = "equity" then some 13
  else if s = "ebit" then some 2
  else if s = "interest_costs" then some 3
  else if s = "debt_service_of_principal" then some 12
  else if s = "revenue" then some 1
  else if s = "profit" then some 4
  else if s = "assets" then some 8
  else if s = "liabilities" then some 11
  else if s = "cash_flow" then some 15
  else none

/-- The `Table` class (main.py lines 93-119): the ordered row list and the
name-to-index dictionary (modelled by its `get` function). -/
structure Table where
  rows : List Row
  idx : String → Option Nat

/-- `Table.get_row_by_name` (main.py lines 98-102): `None` when the name is
unregistered (or its dict value is `None`) or the mapped index is not below
the current row-list length; otherwise the row at that index. -/
def Table.get_row_by_name (t : Table) (row_name : String) : Option Row :=
  match t.idx row_name with
  | none => none
  | some index => if index < t.rows.length then t.rows.get? index else none

/-- `Table.add_row` (main.py lines 104-105). -/
def Table.add_row (t : Table) (row : Row) : Table := ⟨t.rows ++ [row], t.idx⟩

/-- Resolving the source rows of a formula.  In
`[self.get_row_by_name(n).current_year for n in names]` a failed lookup
returns `None` and the attribute access raises `AttributeError`. -/
def resolve_rows (t : Table) : List String → Except Unit (List Row)
  | [] => .ok []
  | n :: ns =>
    match t.get_row_by_name n with
    | none => .error ()
    | some r =>
      match resolve_rows t ns with
      | .error e => .error e
      | .ok rs => .ok (r :: rs)

/-- `Table.get_values_from_lambda_tuple` (main.py lines 107-110): resolve the
named rows, apply the lambda to their `current_year` values, then to their
`last_year` values. -/
def Table.get_values_from_lambda_tuple (t : Table) (func : Formula) (names : List String) :
    Except Unit (Dec × Dec) :=
  match resolve_rows t names with
  | .error e => .error e
  | .ok rs =>
    match func (rs.map (fun r => r.current_year)) with
    | .error e => .error e
    | .ok c =>
      match func (rs.map (fun r => r.last_year)) with
      | .error e => .error e
      | .ok l => .ok (c, l)

/-- `name.lower().replace(" ", "_")` (main.py line 117). -/
def normalize_row_name (s : String) : String :=
  String.mk (s.data.map (fun c => if c = ' ' then '_' else c.toLower))

/-- `self.row_name_index_dict[key] = v`, seen through `dict.get`. -/
def updateIdx (m : String → Option Nat) (key : String) (v : Nat) : String → Option Nat :=
  fun s => if s = key then some v else m s

/-- `Row(name, "", "")`: the all-missing fallback row appended in the
`except Exception` arm; equals `Row.make name .bad .bad` (see `Row.make_bad`). -/
def fallbackRow (name : String) : Row := ⟨name, none, none, none, none⟩

/-- The body of the `try` block of `generate_additional_rows` for one registry
entry: fetch the two formula values, then construct the derived `Row` (whose
`__post_init__` may itself raise). -/
def gen_entry_values (t : Table) (e : RegEntry) : Except Unit Row :=
  match t.get_values_from_lambda_tuple e.2.1 e.2.2 with
  | .error er => .error er
  | .ok (c, l) => Row.make e.1 (Raw.num c) (Raw.num l)

/-- One iteration of `generate_additional_rows` (main.py lines 113-119).  On
success the row is appended and its normalized name registered at the new
index `len(self.rows) - 1`; on any exception only the fallback row is
appended — the dictionary assignment is inside the `try`, so a fallback entry
is never registered. -/
def gen_step (t : Table) (e : RegEntry) : Table :=
  match gen_entry_values t e with
  | .ok r => ⟨t.rows ++ [r], updateIdx t.idx (normalize_row_name e.1) t.rows.length⟩
  | .error _ => ⟨t.rows ++ [fallbackRow e.1], t.idx⟩

/-- `Table.generate_additional_rows` (main.py lines 112-119): fold the
registry entries, in order, over the table. -/
def Table.generate_additional_rows (t : Table) : Table :=
  ADDITIONAL_ROWS.foldl gen_step t

/-- The decimal digit character for `n < 10`. -/
def digitChar (n : Nat) : Char := Char.ofNat (48 + n)

/-- Decimal digits of `n`, least-significant first (`['0']` for `0`).
Structural recursion on a fuel argument; `natToDigitsRev` supplies `n + 1`,
which always suffices. -/
def natToDigitsRevGo : Nat → Nat → List Char
  | 0, _ => []
  | f + 1, n => if n < 10 then [digitChar n] else digitChar (n % 10) :: natToDigitsRevGo f (n / 10)

/-- Wrapper fixing the fuel. -/
def natToDigitsRev (n : Nat) : List Char := natToDigitsRevGo (n + 1) n

/-- Thousands grouping of the `,` format option, on a least-significant-first
digit list: a `','` is inserted before every fourth, seventh, ... digit
counted from the right.  The first argument counts how many digits may still
be emitted before the next separator. -/
def groupRevAux : Nat → List Char → List Char
  | _, [] => []
  | 0, c :: cs => ',' :: c :: groupRevAux 2 cs
  | k + 1, c :: cs => c :: groupRevAux k cs

/-- The integer-part characters (most-significant first) of the fixed-point
rendering, with thousands separators when `with_commas` is set. -/
def intPartChars (with_commas : Bool) (m : Nat) : List Char :=
  (if with_commas then groupRevAux 3 (natToDigitsRev m) else natToDigitsRev m).reverse

/-- Round to the nearest integer, ties to even: the `ROUND_HALF_EVEN` rounding
used by `Decimal.__format__`. -/
def roundHalfEven (q : ℚ) : ℤ :=
  let f : ℤ := Int.fdiv q.num q.den
  let r : ℚ := q - (f : ℚ)
  if r < 1 / 2 then f
  else if 1 / 2 < r then f + 1
  else if f % 2 = 0 then f else f + 1

/-- `f"{value:,.2f}"` / `f"{value:.2f}"` on a finite Decimal: sign, integer
part (grouped when `with_commas`), `'.'`, and exactly two fractional digits.
(The sign of a zero result is not tracked, see the module comment.) -/
def pyFixed2 (with_commas : Bool) (q : ℚ) : String :=
  let n : ℤ := roundHalfEven (q * 100)
  let m : Nat := n.natAbs
  String.mk ((if n < 0 then ['-'] else []) ++ intPartChars with_commas (m / 100) ++
    '.' :: [digitChar (m % 100 / 10), digitChar (m % 100 % 10)])

/-- A digit run with its maximal suffix of `'0'` characters removed. -/
def dropTrailingZeros (run : List Char) : List Char :=
  (run.reverse.dropWhile (fun c => c = '0')).reverse

/-- The action of `tail_dot_rgx.sub(r"\2", a)` for the pattern
`(?:(\.)|(\.\d*?[1-9]\d*?))0+(?=\b|[^0-9])` (main.py lines 55-59), modelled by
a matcher specialized to this pattern.  A match can only start at a `'.'`; the
lookahead `(?=\b|[^0-9])` after a `'0'` holds exactly at the end of the string
or before a non-digit, so a match consumes the dot together with the whole
maximal digit run following it, and exists exactly when that run is nonempty
and ends in `'0'`.  If the run is all zeros, the first alternative matches and
the replacement `\2` is empty (dot and zeros deleted); otherwise the second
alternative matches with `\2` holding the dot and the run minus its trailing
zeros.  Scanning resumes after the consumed run; positions inside a digit run
can never start a match.  Structural recursion on a fuel argument; callers
pass the string length, which always suffices. -/
def stripGo : Nat → List Char → List Char
  | 0, _ => []
  | fuel + 1, [] => (fun _ => []) fuel
  | fuel + 1, c :: rest =>
    if c = '.' then
      let run := rest.takeWhile Char.isDigit
      let rest' := rest.dropWhile Char.isDigit
      if run.getLast? = some '0' then
        (if run.all (fun d => d = '0') then [] else '.' :: dropTrailingZeros run) ++
          stripGo fuel rest'
      else '.' :: (run ++ stripGo fuel rest')
    else c :: stripGo fuel rest

/-- `remove_tail_dot_zeros` (main.py lines 58-59). -/
def remove_tail_dot_zeros (a : String) : String := String.mk (stripGo a.data.length a.data)

/-- `format_decimal` (main.py lines 122-131).  `None` renders as `""`; the
percent branch renders `value * 100` with two fractional digits, no grouping
and no stripping; the fixed-point branch strips trailing fractional zeros.
NaN and infinities render as their `str` forms (`Decimal.__format__` does not
raise on them), so the `except` arm of the source is unreachable for Decimal
inputs and the model is total. -/
def format_decimal (value : Option Dec) (as_percent : Bool) (with_commas : Bool) : String :=
  match value with
  | none => ""
  | some .nan => if as_percent then "NaN%" else "NaN"
  | some (.inf s) => (if s then "-Infinity" else "Infinity") ++ if as_percent then "%" else ""
  | some (.fin q) =>
    if as_percent then pyFixed2 false (q * 100) ++ "%"
    else remove_tail_dot_zeros (pyFixed2 with_commas q)

set_option maxRecDepth 8000

/-- `name.replace("_", " ")` used for the paragraph text. -/
def underscoreToSpace (s : String) : String :=
  String.mk (s.data.map (fun c => if c = '_' then ' ' else c))

/-- The data of one paragraph written by `write_text_report`: the display
name, the direction phrase, the four formatted numbers of the sentence, and
whether the over-threshold warning line is emitted. -/
structure ReportLine where
  name : String
  change_type : String
  diff_str : String
  ratio_str : String
  last_str : String
  current_str : String
  flagged : Bool
deriving DecidableEq

/-- The check `if row.ratio and abs(row.ratio) > 1` (main.py line 149):
`None` and zero are falsy and short-circuit; otherwise `abs(ratio) > 1` is
evaluated, which signals `InvalidOperation` on a NaN. -/
def ratioFlag : Option Dec → Except Unit Bool
  | none => .ok false
  | some d =>
    if Dec.truthy d then
      match d with
      | .nan => .error ()
      | .inf _ => .ok true
      | .fin q => .ok (decide (1 < |q|))
    else .ok false

/-- The body of `write_text_report` for one resolved row (main.py lines
140-150).  `row.difference >= 0` raises `TypeError` when the difference is
`None` and `InvalidOperation` when it is NaN; nothing in the source catches
either, so the fault aborts the report. -/
def reportLine (name : String) (row : Row) : Except Unit ReportLine :=
  match row.difference with
  | none => .error ()
  | some d =>
    match Dec.geZero d with
    | .error e => .error e
    | .ok ge =>
      match ratioFlag row.ratio with
      | .error e => .error e
      | .ok fl =>
        .ok ⟨underscoreToSpace name, if ge then "an increase" else "a decrease",
          format_decimal row.difference false true, format_decimal row.ratio true true,
          format_decimal row.last_year false true, format_decimal row.current_year false true, fl⟩

/-- The fixed name list of `write_text_report` (main.py line 136). -/
def report_names : List String :=
  ["revenue", "profit", "assets", "liabilities", "equity", "current_ratio", "dte_ratio",
   "dsc_ratio"]

/-- The loop of `write_text_report`: unresolved names are skipped
(`if not row: continue`; a dataclass instance is always truthy), resolved rows
produce a paragraph or raise. -/
def report_rows (t : Table) : List String → Except Unit (List ReportLine)
  | [] => .ok []
  | n :: ns =>
    match t.get_row_by_name n with
    | none => report_rows t ns
    | some r =>
      match reportLine n r with
      | .error e => .error e
      | .ok l =>
        match report_rows t ns with
        | .error e => .error e
        | .ok ls => .ok (l :: ls)

/-- `write_text_report` (main.py lines 134-150), as the list of paragraph
data it writes, or the uncaught exception. -/
def write_text_report (t : Table) : Except Unit (List ReportLine) := report_rows t report_names

/-- One record of the output CSV (main.py lines 170-176). -/
def csvLine (r : Row) : List String :=
  [r.name, format_decimal r.current_year false true, format_decimal r.last_year false true,
   format_decimal r.difference false true, format_decimal r.ratio true true]

/-- The ingest loop of `analyse_file` (main.py lines 157-158):
`Row(*row.values())` is not guarded, so a constructor fault aborts the run. -/
def make_rows : List (String × Raw × Raw) → Except Unit (List Row)
  | [] => .ok []
  | (n, c, l) :: rest =>
    match Row.make n c l with
    | .error e => .error e
    | .ok r =>
      match make_rows rest with
      | .error e => .error e
      | .ok rs => .ok (r :: rs)

/-- The value-level core of `analyse_file` (main.py lines 153-180), file I/O
elided: ingest the records, generate the derived rows, and produce the CSV
records (sink A) and the narrative paragraphs (sink B).  In the source the
CSV file is written before the narrative, so when `write_text_report` raises,
the CSV exists but the run aborts without the narrative sink; the model
returns the uncaught exception in that case. -/
def analyse_file_core (records : List (String × Raw × Raw)) :
    Except Unit (List (List String) × List ReportLine) :=
  match make_rows records with
  | .error e => .error e
  | .ok rows =>
    let t := Table.generate_additional_rows
      (rows.foldl Table.add_row ⟨[], DEFAULT_COLUMN_ROW_INDEX⟩)
    match write_text_report t with
    | .error e => .error e
    | .ok rpt => .ok (t.rows.map csvLine, rpt)

/-- The constructed row for inputs on which `Row.make` cannot raise (used to
build concrete tables; the default is never reached on such inputs). -/
def rowOf (name : String) (ra rb : Raw) : Row :=
  (Row.make name ra rb).toOption.getD (fallbackRow name)

/-- A row built from two finite numeric cells. -/
def fr (name : String) (c l : ℚ) : Row := rowOf name (Raw.num (Dec.fin c)) (Raw.num (Dec.fin l))

/-- An 11-row base table (indices 0-10) with current assets `(100, 80)` at
index 7 and current liabilities `(50, 40)` at index 10. -/
def c2Table : Table :=
  ⟨[fr "item0" 1 1, fr "revenue row" 500 400, fr "ebit row" 30 20, fr "interest row" 10 10,
    fr "profit row" 20 10, fr "item5" 1 1, fr "item6" 1 1, fr "current assets" 100 80,
    fr "assets row" 200 150, fr "ncib row" 60 40, fr "current liabilities" 50 40],
   DEFAULT_COLUMN_ROW_INDEX⟩

/-- The "Current Ratio" row derived from `c2Table`. -/
def c2DerivedRow : Row :=
  ⟨"Current Ratio", some (Dec.fin 2), some (Dec.fin 2), some (Dec.fin 0), some (Dec.fin 0)⟩

/-- A full 16-row base table whose equity cells (index 13) are unparseable;
every other expected position holds finite values. -/
def c3BadTable : Table :=
  ⟨[fr "item0" 1 1, fr "revenue row" 500 400, fr "ebit row" 30 20, fr "interest row" 10 10,
    fr "profit row" 20 10, fr "item5" 1 1, fr "item6" 1 1, fr "current assets" 100 80,
    fr "assets row" 200 150, fr "ncib row" 60 40, fr "current liabilities" 50 40,
    fr "liabilities row" 90 80, fr "principal row" 5 10, rowOf "equity row" Raw.bad Raw.bad,
    fr "item14" 1 1, fr "cash flow row" 25 20],
   DEFAULT_COLUMN_ROW_INDEX⟩

/-- A 13-row base table (indices 0-12): the equity line item is absent from
the input, every position up to the debt-service principal holds finite
values. -/
def c3ShortTable : Table :=
  ⟨[fr "item0" 1 1, fr "revenue row" 500 400, fr "ebit row" 30 20, fr "interest row" 10 10,
    fr "profit row" 20 10, fr "item5" 1 1, fr "item6" 1 1, fr "current assets" 100 80,
    fr "assets row" 200 150, fr "ncib row" 60 40, fr "current liabilities" 50 40,
    fr "liabilities row" 90 80, fr "principal row" 5 10],
   DEFAULT_COLUMN_ROW_INDEX⟩

/-- The table with no rows at all. -/
def emptyTable : Table := ⟨[], DEFAULT_COLUMN_ROW_INDEX⟩

/-- An input whose record at index 1 — the `revenue` position of the fixed
schema — has two non-numeric cells. -/
def c4Input : List (String × Raw × Raw) :=
  [("item0", Raw.num (Dec.fin 1), Raw.num (Dec.fin 1)), ("revenue row", Raw.bad, Raw.bad)]

/-- The row `(5, 5)` used to witness `report_direction`: difference `0`. -/
def c10Row : Row := fr "revenue value" 5 5

/-- The paragraph produced for `c10Row` under the report name `revenue`. -/
def c10Line : ReportLine :=
  (reportLine "revenue" c10Row).toOption.getD ⟨"", "", "", "", "", "", false⟩

/-- The signed, optionally grouped integer-part characters of `pyFixed2`. -/
def fmtSignedIntPart (with_commas : Bool) (q : ℚ) : List Char :=
  (if roundHalfEven (q * 100) < 0 then ['-'] else []) ++
    intPartChars with_commas ((roundHalfEven (q * 100)).natAbs / 100)

/-- The tens fractional digit of `pyFixed2`. -/
def fmtFracDigit1 (q : ℚ) : Char := digitChar ((roundHalfEven (q * 100)).natAbs % 100 / 10)

/-- The units fractional digit of `pyFixed2`. -/
def fmtFracDigit2 (q : ℚ) : Char := digitChar ((roundHalfEven (q * 100)).natAbs % 100 % 10)

/-- `Row(name, "", "")` never raises: the fallback construction equals the
all-missing row. -/
theorem Row.make_bad (n : String) : Row.make n .bad .bad = .ok (fallbackRow n) := rfl

/-- Every `.ok` arm of `Row.make` stores the name and the two parse results in
the `name`, `current_year` and `last_year` fields. -/
theorem Row.make_fields (name : String) (ra rb : Raw) (r : Row)
    (h : Row.make name ra rb = .ok r) :
    r.name = name ∧ r.current_year = safe_decimal ra ∧ r.last_year = safe_decimal rb := by
  rcases hca : safe_decimal ra with _ | c <;> rcases hcb : safe_decimal rb with _ | l <;>
    simp only [Row.make, hca, hcb] at h <;> repeat' split at h
  all_goals first
    | exact Except.noConfusion h
    | (simp only [Except.ok.injEq] at h; subst h; exact ⟨rfl, rfl, rfl⟩)

/-- C1: for every pair of raw period inputs that both parse to (finite)
decimal values, the row's change ratio is undefined (`None`) if the prior
value is `0` or `current * prior < 0`, and otherwise equals
`(current - prior) / prior` exactly; the difference is `current - prior`. -/
theorem change_ratio_policy (name : String) (ra rb : Raw) (a b : ℚ)
    (ha : safe_decimal ra = some (Dec.fin a)) (hb : safe_decimal rb = some (Dec.fin b)) :
    Row.make name ra rb =
      .ok ⟨name, some (Dec.fin a), some (Dec.fin b), some (Dec.fin (a - b)),
        if b = 0 ∨ a * b < 0 then none else some (Dec.fin ((a - b) / b))⟩ := by
  simp only [Row.make, ha, hb, Dec.sub]
  by_cases hb0 : b = 0
  · simp [Dec.neZero, hb0]
  · simp only [Dec.neZero, hb0, Dec.mul, Dec.geZero, decide_not, not_false_eq_true,
      decide_eq_true_eq]
    by_cases hab : 0 ≤ a * b
    · simp [hab, Dec.div, hb0, hb0, not_lt.mpr hab]
    · simp [hab, hb0, not_le.mp hab]

/-- Witness for `change_ratio_policy` at `(current, prior) = (3, 2)`. -/
theorem change_ratio_policy_witness :
    Row.make "x" (Raw.num (Dec.fin 3)) (Raw.num (Dec.fin 2)) =
      .ok ⟨"x", some (Dec.fin 3), some (Dec.fin 2), some (Dec.fin 1), some (Dec.fin (1 / 2))⟩ := by
  have h := change_ratio_policy "x" (Raw.num (Dec.fin 3)) (Raw.num (Dec.fin 2)) 3 2 rfl rfl
  norm_num at h
  exact h

/-- C5 counterexample: the raw pair `("NaN", "5")` parses (a quiet NaN is a
valid `Decimal`), and `Row.__post_init__` then raises `InvalidOperation` at
`current_year * last_year >= 0` — constructing the row does raise, and the
fault is not converted to missing fields. -/
theorem row_make_raises_on_nan :
    Row.make "x" (Raw.num Dec.nan) (Raw.num (Dec.fin 5)) = .error () := by
  with_unfolding_all decide

/-- C5 (amended): constructing a `Row` never raises when each raw input
either fails to parse or parses to a finite decimal; only special values
(NaN, infinities) can make `__post_init__` raise. -/
theorem row_make_total_on_finite (name : String) (ra rb : Raw)
    (ha : isFinOrNone (safe_decimal ra) = true) (hb : isFinOrNone (safe_decimal rb) = true) :
    (Row.make name ra rb).isOk = true := by
  rcases hca : safe_decimal ra with _ | c <;> rcases hcb : safe_decimal rb with _ | l <;>
    simp only [Row.make, hca, hcb]
  · rfl
  · rfl
  · rfl
  · rw [hca] at ha; rw [hcb] at hb
    rcases c with a | _ | _ <;> rcases l with b | _ | _ <;> simp [isFinOrNone] at ha hb
    simp only [Dec.sub, Dec.neZero, Dec.mul, Dec.geZero]
    by_cases hb0 : b = 0
    · simp [hb0, Except.isOk, Except.toBool]
    · simp only [hb0, decide_not, not_false_eq_true, decide_eq_true_eq, if_true]
      by_cases hab : 0 ≤ a * b
      · simp [hab, Dec.div, hb0, Except.isOk, Except.toBool]
      · simp [hab, Except.isOk, Except.toBool]

/-- Witness for `row_make_total_on_finite` at `("3", "0")`. -/
theorem row_make_total_on_finite_witness :
    (Row.make "x" (Raw.num (Dec.fin 3)) (Raw.num (Dec.fin 0))).isOk = true :=
  row_make_total_on_finite "x" (Raw.num (Dec.fin 3)) (Raw.num (Dec.fin 0)) rfl rfl

/-- C6: `get_row_by_name` returns a row exactly when the name resolves to an
index within the current row-list length (and then it is the row at that
index); it returns `None` when the name is unregistered or the index is out
of bounds.  The model is a total function: no out-of-range access occurs. -/
theorem get_row_by_name_safe (t : Table) (name : String) :
    (∀ r : Row, t.get_row_by_name name = some r ↔
      ∃ i : Nat, t.idx name = some i ∧ ∃ h : i < t.rows.length, r = t.rows.get ⟨i, h⟩) ∧
    (t.get_row_by_name name = none ↔
      t.idx name = none ∨ ∃ i : Nat, t.idx name = some i ∧ t.rows.length ≤ i) := by
  rcases hidx : t.idx name with _ | i
  · constructor
    · intro r
      simp [Table.get_row_by_name, hidx]
    · simp [Table.get_row_by_name, hidx]
  · by_cases hlt : i < t.rows.length
    · constructor
      · intro r
        simp only [Table.get_row_by_name, hidx, if_pos hlt, List.get?_eq_get hlt,
          Option.some.injEq]
        constructor
        · intro h
          exact ⟨i, rfl, hlt, h.symm⟩
        · rintro ⟨j, hj, hjlt, hr⟩
          obtain rfl : i = j := by simpa using hj
          rw [hr]
      · simp only [Table.get_row_by_name, hidx, if_pos hlt, List.get?_eq_get hlt]
        constructor
        · intro h
          exact Option.noConfusion h
        · rintro (h | ⟨j, hj, hjle⟩)
          · exact Option.noConfusion h
          · obtain rfl : i = j := by simpa using hj
            exact absurd hlt (not_lt.mpr hjle)
    · constructor
      · intro r
        simp only [Table.get_row_by_name, hidx, if_neg hlt]
        constructor
        · intro h
          exact Option.noConfusion h
        · rintro ⟨j, hj, hjlt, _⟩
          obtain rfl : i = j := by simpa using hj
          exact absurd hjlt hlt
      · simp only [Table.get_row_by_name, hidx, if_neg hlt]
        constructor
        · intro _
          exact Or.inr ⟨i, rfl, not_lt.mp hlt⟩
        · intro _
          trivial

/-- C8: when either raw period value fails to parse, the row is constructed
without raising, its `difference` and `ratio` are both missing, and the CSV
sink renders both as empty strings (formatting a missing value yields `""`).
-/
theorem missing_propagation :
    (∀ (name : String) (ra rb : Raw), safe_decimal ra = none ∨ safe_decimal rb = none →
      Row.make name ra rb = .ok ⟨name, safe_decimal ra, safe_decimal rb, none, none⟩ ∧
      csvLine ⟨name, safe_decimal ra, safe_decimal rb, none, none⟩ =
        [name, format_decimal (safe_decimal ra) false true,
         format_decimal (safe_decimal rb) false true, "", ""]) ∧
    (∀ ap wc : Bool, format_decimal none ap wc = "") := by
  constructor
  · intro name ra rb h
    refine ⟨?_, rfl⟩
    rcases h with h | h
    · rcases hcb : safe_decimal rb with _ | l <;> simp [Row.make, h, hcb]
    · rcases hca : safe_decimal ra with _ | c <;> simp [Row.make, h, hca]
  · intro ap wc
    rfl

/-- Witness for `missing_propagation` at `("", "5")`. -/
theorem missing_propagation_witness :
    Row.make "x" Raw.bad (Raw.num (Dec.fin 5)) =
      .ok ⟨"x", none, some (Dec.fin 5), none, none⟩ ∧
    csvLine ⟨"x", none, some (Dec.fin 5), none, none⟩ = ["x", "", "5", "", ""] := by
  have h := (missing_propagation.1 "x" Raw.bad (Raw.num (Dec.fin 5)) (Or.inl rfl))
  exact ⟨h.1, by with_unfolding_all decide⟩

/-- C2: when the source rows resolve and formula evaluation and row
construction succeed with period values `(c, l)`, the registry step appends
exactly the row built by `Row.make` from those two scalars (so its
`difference`/`ratio` derivation is that of a base row) and registers its
normalized name; the derived row's period fields are the two formula results.
Concretely, on a table with current assets `(100, 80)` and current
liabilities `(50, 40)`, the "Current Ratio" row is `(2, 2)` with difference
`0` and change ratio `0`. -/
theorem derived_rows_apply_formula :
    (∀ (t : Table) (name : String) (func : Formula) (args : List String) (c l : Dec) (r : Row),
      t.get_values_from_lambda_tuple func args = .ok (c, l) →
      Row.make name (Raw.num c) (Raw.num l) = .ok r →
      gen_step t (name, func, args) =
        ⟨t.rows ++ [r], updateIdx t.idx (normalize_row_name name) t.rows.length⟩ ∧
      r.current_year = some c ∧ r.last_year = some l) ∧
    (c2Table.generate_additional_rows).rows.get? 11 = some c2DerivedRow := by
  constructor
  · intro t name func args c l r hv hr
    have hg : gen_entry_values t (name, func, args) = .ok r := by
      simp only [gen_entry_values, hv, hr]
    refine ⟨?_, ?_, ?_⟩
    · simp only [gen_step, hg]
    · exact (Row.make_fields name (Raw.num c) (Raw.num l) r hr).2.1
    · exact (Row.make_fields name (Raw.num c) (Raw.num l) r hr).2.2
  · with_unfolding_all decide

/-- Witness for `derived_rows_apply_formula` on the first registry entry over
`c2Table`. -/
theorem derived_rows_apply_formula_witness :
    gen_step c2Table ("Current Ratio", currentRatioFormula,
      ["current_asset", "current_liability"]) =
      ⟨c2Table.rows ++ [c2DerivedRow],
       updateIdx c2Table.idx (normalize_row_name "Current Ratio") c2Table.rows.length⟩ ∧
    c2DerivedRow.current_year = some (Dec.fin 2) ∧ c2DerivedRow.last_year = some (Dec.fin 2) :=
  derived_rows_apply_formula.1 c2Table "Current Ratio" currentRatioFormula
    ["current_asset", "current_liability"] (Dec.fin 2) (Dec.fin 2) c2DerivedRow
    (by with_unfolding_all decide) (by with_unfolding_all decide)

/-- C3 counterexample, refuting the claim's example: on a base table where
the equity line is absent from the input (13 rows, indices 0-12, all other
expected positions finite), the `equity -> 13` lookup resolves to the
"Current Ratio" row appended one step earlier, so the "Debt to Equity Ratio"
row is computed from the aliased values `(2, 2)` — here `ncib = (60, 40)`
gives `(30, 20)` with difference `10` and ratio `1/2` — instead of being
all-missing. -/
theorem formula_failure_isolation_cex :
    (c3ShortTable.generate_additional_rows).rows.get? 14 =
      some ⟨"Debt to Equity Ratio", some (Dec.fin 30), some (Dec.fin 20), some (Dec.fin 10),
        some (Dec.fin (1 / 2))⟩ := by
  with_unfolding_all decide

/-- C3 (amended): every registry step appends exactly one row — the computed
row on success, the all-missing fallback when lookup or evaluation raises —
and a failing entry does not affect the others.  The claim's example holds
when "equity" is missing at the value level: with an unparseable equity cell
at index 13 of a 16-row base table, "Debt to Equity Ratio" is all-missing
while "Current Ratio" (`(2, 2, 0, 0)`) and "Debt Service Coverage Ratio"
(`(2, 1, 1, 1)`) compute normally.  (When the equity *line* is absent so
that index 13 falls outside the base rows, the lookup aliases the
just-appended "Current Ratio" row instead of failing: see
`formula_failure_isolation_cex`.) -/
theorem formula_failure_isolation :
    (∀ (t : Table) (e : RegEntry), (gen_step t e).rows =
      t.rows ++ [match gen_entry_values t e with
                 | .ok r => r
                 | .error _ => fallbackRow e.1]) ∧
    (c3BadTable.generate_additional_rows).rows.length = 19 ∧
    (c3BadTable.generate_additional_rows).rows.get? 17 =
      some (fallbackRow "Debt to Equity Ratio") ∧
    (c3BadTable.generate_additional_rows).rows.get? 16 = some c2DerivedRow ∧
    (c3BadTable.generate_additional_rows).rows.get? 18 =
      some ⟨"Debt Service Coverage Ratio", some (Dec.fin 2), some (Dec.fin 1), some (Dec.fin 1),
        some (Dec.fin 1)⟩ := by
  refine ⟨fun t e => ?_, ?_, ?_, ?_, ?_⟩
  · rcases hg : gen_entry_values t e with _ | r <;> simp [gen_step, hg]
  · with_unfolding_all decide
  · with_unfolding_all decide
  · with_unfolding_all decide
  · with_unfolding_all decide

/-- C7 counterexample: on an empty base table every registry entry falls back
(all three rows are appended as all-missing fallbacks), and no name is
registered — `current_ratio` and the normalized "Debt to Equity Ratio" name
still resolve to nothing, refuting registration "whether the entry succeeded
or fell back". -/
theorem registration_skipped_on_fallback :
    (emptyTable.generate_additional_rows).rows.length = 3 ∧
    (emptyTable.generate_additional_rows).rows.get? 0 = some (fallbackRow "Current Ratio") ∧
    (emptyTable.generate_additional_rows).idx "current_ratio" = none ∧
    (emptyTable.generate_additional_rows).idx (normalize_row_name "Debt to Equity Ratio") =
      none := by
  refine ⟨?_, ?_, ?_, ?_⟩ <;> with_unfolding_all decide

/-- C7 (amended): a registry step updates the lookup map only on success —
the new row's normalized name (lower-cased, spaces to underscores) is then
registered at the appended row's index, and looking that name up returns the
new row; on fallback the lookup map is left unchanged. -/
theorem derived_row_registration :
    (∀ (t : Table) (e : RegEntry), (gen_step t e).idx =
      match gen_entry_values t e with
      | .ok _ => updateIdx t.idx (normalize_row_name e.1) t.rows.length
      | .error _ => t.idx) ∧
    (∀ (t : Table) (e : RegEntry) (r : Row), gen_entry_values t e = .ok r →
      (gen_step t e).get_row_by_name (normalize_row_name e.1) = some r) := by
  constructor
  · intro t e
    rcases hg : gen_entry_values t e with _ | r <;> simp [gen_step, hg]
  · intro t e r hg
    simp only [gen_step, hg]
    simp [Table.get_row_by_name, updateIdx, List.getElem?_concat_length]

/-- Witness for `derived_row_registration` on the first registry entry over
`c2Table`. -/
theorem derived_row_registration_witness :
    (gen_step c2Table ("Current Ratio", currentRatioFormula,
      ["current_asset", "current_liability"])).get_row_by_name
        (normalize_row_name "Current Ratio") = some c2DerivedRow :=
  derived_row_registration.2 c2Table
    ("Current Ratio", currentRatioFormula, ["current_asset", "current_liability"])
    c2DerivedRow (by with_unfolding_all decide)

/-- C4 (the code, evaluated at the failing input): on an input whose record
at index 1 — the schema position the report resolves as `revenue` — has
non-numeric cells, the run does not complete: both cells parse to `None`, the
row's `difference` is missing, and `write_text_report` raises `TypeError` at
`row.difference >= 0`, which nothing catches. -/
theorem run_aborts_on_missing_revenue : analyse_file_core c4Input = .error () := by
  with_unfolding_all decide

/-- C10: in the narrative report, the direction phrase of a row whose
difference is the finite decimal `q` is "an increase" exactly when `0 <= q` —
so a zero difference reports "an increase", and "a decrease" appears only for
strictly negative differences. -/
theorem report_direction (name : String) (row : Row) (q : ℚ) (l : ReportLine)
    (hd : row.difference = some (Dec.fin q)) (hl : reportLine name row = .ok l) :
    l.change_type = (if 0 ≤ q then "an increase" else "a decrease") ∧
    (q = 0 → l.change_type = "an increase") ∧
    (l.change_type = "a decrease" ↔ q < 0) := by
  rw [reportLine, hd] at hl
  simp only [Dec.geZero] at hl
  rcases hf : ratioFlag row.ratio with _ | fl <;> rw [hf] at hl
  · exact Except.noConfusion hl
  · simp only [Except.ok.injEq] at hl
    subst hl
    by_cases hq : 0 ≤ q
    · refine ⟨by simp [hq], fun _ => by simp [hq], ?_⟩
      simp only [hq, decide_eq_true_eq, if_pos, if_true]
      constructor
      · intro h
        exact absurd h (by simp [hq])
      · intro h
        exact absurd hq (not_le.mpr h)
    · refine ⟨by simp [hq], fun h0 => absurd (le_of_eq h0.symm) hq, ?_⟩
      simp only [hq, decide_eq_true_eq, if_neg, if_false]
      simp [not_le.mp hq]

/-- Witness for `report_direction`: a zero difference reports "an increase". -/
theorem report_direction_witness : c10Line.change_type = "an increase" :=
  (report_direction "revenue" c10Row 0 c10Line (by with_unfolding_all decide)
    (by with_unfolding_all decide)).2.1 rfl

theorem stripGo_nil (fuel : Nat) : stripGo fuel [] = [] := by cases fuel <;> rfl

/-- Unfolding equation of `stripGo` on a nonempty list with nonzero fuel. -/
theorem stripGo_cons (f : Nat) (c : Char) (rest : List Char) :
    stripGo (f + 1) (c :: rest) =
      if c = '.' then
        (if (rest.takeWhile Char.isDigit).getLast? = some '0' then
          (if (rest.takeWhile Char.isDigit).all (fun d => d = '0') then []
           else '.' :: dropTrailingZeros (rest.takeWhile Char.isDigit)) ++
            stripGo f (rest.dropWhile Char.isDigit)
         else '.' :: (rest.takeWhile Char.isDigit ++ stripGo f (rest.dropWhile Char.isDigit)))
      else c :: stripGo f rest := rfl

/-- The regex substitution on a string made of a dot-free prefix, a dot, and
two digits: it deletes the dot and both digits when both are `'0'`, deletes
only the trailing `'0'` when just the last digit is zero, and otherwise
leaves the string unchanged — the prefix is never altered. -/
theorem stripGo_strip (t : List Char) (x y : Char) :
    ∀ fuel : Nat, (t ++ '.' :: [x, y]).length ≤ fuel → ('.' : Char) ∉ t →
    x.isDigit = true → y.isDigit = true →
    stripGo fuel (t ++ '.' :: [x, y]) =
      t ++ (if x = '0' ∧ y = '0' then [] else if y = '0' then ['.', x] else ['.', x, y]) := by
  induction t with
  | nil =>
    intro fuel hfuel _ hx hy
    match fuel, hfuel with
    | f + 1, _ =>
      simp only [List.nil_append]
      rw [stripGo_cons, if_pos rfl]
      have htake : ([x, y] : List Char).takeWhile Char.isDigit = [x, y] := by
        simp [List.takeWhile, hx, hy]
      have hdrop : ([x, y] : List Char).dropWhile Char.isDigit = [] := by
        simp [List.dropWhile, hx, hy]
      rw [htake, hdrop, stripGo_nil]
      have hlast : ([x, y] : List Char).getLast? = some y := rfl
      rw [hlast]
      by_cases hy0 : y = '0'
      · rw [if_pos (by rw [hy0])]
        by_cases hx0 : x = '0'
        · rw [if_pos (by simp [hx0, hy0]), if_pos ⟨hx0, hy0⟩]
          simp
        · rw [if_neg (by simp [hx0]), if_neg (by simp [hx0]), if_pos hy0]
          subst hy0
          simp [dropTrailingZeros, List.dropWhile, hx0]
      · rw [if_neg (by simp [hy0]), if_neg (by simp [hy0]), if_neg (by simp [hy0])]
        simp
  | cons c t ih =>
    intro fuel hfuel hmem hx hy
    match fuel, hfuel with
    | f + 1, hfuel =>
      have hc : ¬(c = '.') := by
        intro h
        exact hmem (by rw [h]; exact List.mem_cons_self '.' t)
      simp only [List.cons_append]
      rw [stripGo_cons, if_neg hc,
        ih f (by simp at hfuel ⊢; omega)
          (fun h => hmem (List.mem_cons_of_mem c h)) hx hy]

theorem digitChar_isDigit (k : Nat) (h : k < 10) : (digitChar k).isDigit = true := by
  interval_cases k <;> decide

theorem natToDigitsRevGo_digits :
    ∀ (fuel n : Nat), ∀ c ∈ natToDigitsRevGo fuel n, c.isDigit = true := by
  intro fuel
  induction fuel with
  | zero =>
    intro n c hc
    simp [natToDigitsRevGo] at hc
  | succ f ih =>
    intro n c hc
    rw [natToDigitsRevGo] at hc
    by_cases h : n < 10
    · rw [if_pos h] at hc
      simp only [List.mem_singleton] at hc
      subst hc
      exact digitChar_isDigit n h
    · rw [if_neg h] at hc
      rcases List.mem_cons.mp hc with h1 | h1
      · subst h1
        exact digitChar_isDigit _ (Nat.mod_lt _ (by norm_num))
      · exact ih _ _ h1

theorem groupRevAux_mem :
    ∀ (ds : List Char) (k : Nat) (c : Char), c ∈ groupRevAux k ds → c ∈ ds ∨ c = ',' := by
  intro ds
  induction ds with
  | nil =>
    intro k c hc
    simp [groupRevAux] at hc
  | cons d ds ih =>
    intro k c hc
    cases k with
    | zero =>
      rw [groupRevAux] at hc
      rcases List.mem_cons.mp hc with h | h
      · exact Or.inr h
      · rcases List.mem_cons.mp h with h2 | h2
        · exact Or.inl (h2 ▸ List.mem_cons_self d ds)
        · rcases ih 2 c h2 with h3 | h3
          · exact Or.inl (List.mem_cons_of_mem d h3)
          · exact Or.inr h3
    | succ k =>
      rw [groupRevAux] at hc
      rcases List.mem_cons.mp hc with h | h
      · exact Or.inl (h ▸ List.mem_cons_self d ds)
      · rcases ih k c h with h3 | h3
        · exact Or.inl (List.mem_cons_of_mem d h3)
        · exact Or.inr h3

theorem intPartChars_no_dot (wc : Bool) (m : Nat) : ('.' : Char) ∉ intPartChars wc m := by
  intro hmem
  rw [intPartChars, List.mem_reverse] at hmem
  have hdig : ('.' : Char).isDigit = true → False := by decide
  cases wc with
  | false =>
    simp only [if_neg Bool.false_ne_true] at hmem
    exact hdig (natToDigitsRevGo_digits _ _ _ hmem)
  | true =>
    simp only [if_pos rfl] at hmem
    rcases groupRevAux_mem _ _ _ hmem with h | h
    · exact hdig (natToDigitsRevGo_digits _ _ _ h)
    · exact absurd h (by decide)

theorem fmtSignedIntPart_no_dot (wc : Bool) (q : ℚ) : ('.' : Char) ∉ fmtSignedIntPart wc q := by
  intro hmem
  rw [fmtSignedIntPart] at hmem
  rcases List.mem_append.mp hmem with h | h
  · revert h
    split
    · intro h
      simp only [List.mem_singleton] at h
      exact absurd h (by decide)
    · intro h
      simp at h
  · exact intPartChars_no_dot _ _ h

/-- C9: non-percent formatting renders a finite value as sign, integer part
(grouped when enabled), a dot and exactly two fractional digits; the
substitution then strips trailing fractional zeros — removing the dot only
when both fractional digits are zero — and never touches the (dot-free)
integer part or its grouping separators.  In particular
`format(1200.50) = "1,200.5"`, `format(1200.00) = "1,200"`, and
`format(1200.10) = "1,200.1"`. -/
theorem fixed_point_formatting :
    (∀ (q : ℚ) (wc : Bool),
      (pyFixed2 wc q).data =
        fmtSignedIntPart wc q ++ '.' :: [fmtFracDigit1 q, fmtFracDigit2 q] ∧
      ('.' : Char) ∉ fmtSignedIntPart wc q ∧
      (fmtFracDigit1 q).isDigit = true ∧ (fmtFracDigit2 q).isDigit = true ∧
      (format_decimal (some (Dec.fin q)) false wc).data =
        fmtSignedIntPart wc q ++
          (if fmtFracDigit1 q = '0' ∧ fmtFracDigit2 q = '0' then []
           else if fmtFracDigit2 q = '0' then ['.', fmtFracDigit1 q]
           else ['.', fmtFracDigit1 q, fmtFracDigit2 q])) ∧
    format_decimal (some (Dec.fin (2401 / 2))) false true = "1,200.5" ∧
    format_decimal (some (Dec.fin 1200)) false true = "1,200" ∧
    format_decimal (some (Dec.fin (12001 / 10))) false true = "1,200.1" := by
  refine ⟨fun q wc => ?_, by with_unfolding_all decide, by with_unfolding_all decide,
    by with_unfolding_all decide⟩
  have hd1 : (fmtFracDigit1 q).isDigit = true := digitChar_isDigit _ (by omega)
  have hd2 : (fmtFracDigit2 q).isDigit = true := digitChar_isDigit _ (by omega)
  refine ⟨rfl, fmtSignedIntPart_no_dot wc q, hd1, hd2, ?_⟩
  have hstep : (format_decimal (some (Dec.fin q)) false wc).data =
      stripGo (fmtSignedIntPart wc q ++ '.' :: [fmtFracDigit1 q, fmtFracDigit2 q]).length
        (fmtSignedIntPart wc q ++ '.' :: [fmtFracDigit1 q, fmtFracDigit2 q]) := rfl
  rw [hstep]
  exact stripGo_strip _ _ _ _ (le_refl _) (fmtSignedIntPart_no_dot wc q) hd1 hd2
